import Mathlib

/-!
Verification development for the portfolio page logic of `script.js`
(single-page personal portfolio: JSON-driven content, placeholder
resolution, project showcase with media classification).

The JavaScript source is embedded shallowly:

* strings are Lean `String`s, scanned as `List Char`;
* JSON documents are the `Content` type below (a mutual inductive, so
  that all recursions stay structural and kernel-reducible);
* the DOM fragments the script mutates (project cards, the `ytFrame`
  iframe, the `projectImg` image, the `projectDemoLink` anchor, the
  selected-title and selected-description panels) are an explicit `Dom`
  record, and
  each source function becomes a `Dom → Dom` state transformer;
* `fetch`/`setTimeout` boundaries are explicit inputs (`FetchOutcome`,
  the fuel of the scanners, the `iframeLoaded` flag of the timeout
  step).
-/

namespace Portfolio

/-- JS `a || b` for string operands: the empty string is falsy. -/
def jsOr (a b : String) : String := if a = "" then b else a

/-- JS `s.startsWith(pre)` (script.js:163 uses it on the media identity). -/
def jsStartsWith (s pre : String) : Bool := pre.data.isPrefixOf s.data

/-- Scan for `sub` as a contiguous run inside a character list. -/
def listIncludes (sub : List Char) : List Char → Bool
  | [] => sub.isEmpty
  | c :: t => sub.isPrefixOf (c :: t) || listIncludes sub t

/-- JS `s.includes(sub)` (hostname checks, `{{id}}` template check). -/
def strIncludes (s sub : String) : Bool := listIncludes sub.data s.data

/-- JS `String.replace` with a plain-string pattern replaces only the first
occurrence (script.js:66, the `youtube_embed` template). -/
def replaceFirstList (pat rep : List Char) : List Char → List Char
  | [] => if pat.isEmpty then rep else []
  | c :: t =>
    if pat.isPrefixOf (c :: t) then rep ++ (c :: t).drop pat.length
    else c :: replaceFirstList pat rep t

/-- JS `s.replace(pat, rep)` for a plain-string `pat`. -/
def strReplaceFirst (s pat rep : String) : String :=
  String.mk (replaceFirstList pat.data rep.data s.data)

/-- Whitespace recognised by JS `trim` (the content actually scanned is
plain key text, so the common ASCII whitespace characters suffice). -/
def isWsChar (c : Char) : Bool := c = ' ' || c = '\t' || c = '\n' || c = '\r'

/-- JS `s.trim()` on a character list. -/
def jsTrimList (l : List Char) : List Char :=
  ((l.dropWhile isWsChar).reverse.dropWhile isWsChar).reverse

/-- JS `s.trim()` (script.js:383, the captured placeholder key). -/
def jsTrim (s : String) : String := String.mk (jsTrimList s.data)

/-- JS `s.toLowerCase()` (script.js:170 lower-cases the parsed hostname). -/
def strLower (s : String) : String := String.mk (s.data.map Char.toLower)

/-- Character allowed in a URI scheme after the leading letter. -/
def isSchemeChar (c : Char) : Bool := c.isAlpha || c.isDigit || c = '+' || c = '-' || c = '.'

/-- Modelled `new URL(s).hostname`, for absolute URLs written
`scheme://[userinfo@]host[:port][/?#...]`; the hostname comes out
lower-cased, as the JS getter returns it.  `none` plays the role of the
`TypeError` the `URL` constructor throws, which every caller in the
source handles with a `catch`.  (URL forms without `//` — `mailto:` and
similar — surface an empty `hostname` in JS; every use in the source
either treats an empty hostname exactly like a parse failure
(`hostname.includes(...)` is false) or falls back to the raw string
(`u.hostname || url`), so they are folded into `none` here.) -/
def urlHostname (s : String) : Option String :=
  let l := s.data
  let scheme := l.takeWhile (fun c => c != ':')
  if scheme.isEmpty then none
  else if scheme.length = l.length then none
  else if !(scheme.headI.isAlpha && scheme.all isSchemeChar) then none
  else
    let rest := l.drop (scheme.length + 1)
    if ['/', '/'].isPrefixOf rest then
      let auth := (rest.drop 2).takeWhile (fun c => c != '/' && c != '?' && c != '#' && c != '\\')
      let hostport := if auth.contains '@' then (auth.reverse.takeWhile (fun c => c != '@')).reverse else auth
      let host := hostport.takeWhile (fun c => c != ':')
      if host.isEmpty then none
      else some (String.mk (host.map Char.toLower))
    else none

/-- One global pass of `value.replace(/{{\s*([^}]+)\s*}}/g, ...)`
(script.js:382): scan left to right; at `{{` take the maximal run of
non-`}` characters; if it is non-empty and immediately followed by `}}`,
emit `lookup` of the trimmed key and continue after the match, otherwise
copy one character and rescan.  The `Nat` argument is fuel bounding the
scan; every recursive call shortens the list, so any fuel of at least
the list length computes the replacement (see `replaceTokens_fuel`). -/
def replaceTokens (lookup : String → String) : Nat → List Char → List Char
  | _, [] => []
  | 0, l => l
  | fuel+1, c :: rest =>
    if c = '{' ∧ rest.take 1 = ['{'] then
      let r2 := rest.drop 1
      let body := r2.takeWhile (fun ch => ch != '}')
      let after := r2.drop body.length
      if after.take 2 = ['}', '}'] ∧ body ≠ [] then
        (lookup (jsTrim (String.mk body))).data ++ replaceTokens lookup fuel (after.drop 2)
      else
        c :: replaceTokens lookup fuel rest
    else
      c :: replaceTokens lookup fuel rest

/-- Does the regex `/{{\s*([^}]+)\s*}}/` match anywhere in the list?
Mirrors the scan of `replaceTokens`, with the same fuel convention. -/
def hasTokenAux : Nat → List Char → Bool
  | _, [] => false
  | 0, _ => false
  | fuel+1, c :: rest =>
    if c = '{' ∧ rest.take 1 = ['{'] then
      let r2 := rest.drop 1
      let body := r2.takeWhile (fun ch => ch != '}')
      let after := r2.drop body.length
      if after.take 2 = ['}', '}'] ∧ body ≠ [] then true
      else hasTokenAux fuel rest
    else hasTokenAux fuel rest

/-- A placeholder token occurs somewhere in the list. -/
def hasToken (l : List Char) : Bool := hasTokenAux l.length l

/- JSON values, as a mutual inductive (`CList`/`CFields` spell out the
array and object spines so that every recursion below is structural). -/
mutual
inductive Content where
  | null
  | bool (b : Bool)
  | num (n : Int)
  | str (s : String)
  | arr (items : CList)
  | obj (fields : CFields)
inductive CList where
  | nil
  | cons (head : Content) (tail : CList)
inductive CFields where
  | nil
  | cons (key : String) (val : Content) (tail : CFields)
end

/-- First field with the given key (JS property lookup on an object). -/
def CFields.findVal : CFields → String → Option Content
  | .nil, _ => none
  | .cons k v t, key => if k = key then some v else t.findVal key

/-- JS `c[k]`: `none` plays `undefined` (also for non-object `c`). -/
def jsGet (c : Content) (k : String) : Option Content :=
  match c with
  | .obj fs => fs.findVal k
  | _ => none

/-- JS `c[k]` with `undefined` folded to `null` (both are falsy and
neither is a string, which is all the source observes of them). -/
def jsGetD (c : Content) (k : String) : Content := (jsGet c k).getD .null

/-- JS `c[k] || ''` as observed where the source expects string fields:
a present string value, else the empty string. -/
def jsGetStr (c : Content) (k : String) : String :=
  match jsGet c k with
  | some (.str s) => s
  | _ => ""

/-- JS truthiness of a JSON value. -/
def jsTruthy : Content → Bool
  | .null => false
  | .bool b => b
  | .num n => n != 0
  | .str s => s != ""
  | .arr _ => true
  | .obj _ => true

/-- The placeholder switch of `replacePlaceholders` (script.js:383-389):
three fixed aliases take priority, any other key reads `profile[key]`,
and `|| ''` turns a failed lookup into the empty string. -/
def profileValue (profile : Content) (key : String) : String :=
  if key = "full_name_from_external_file" then jsGetStr profile "fullName"
  else if key = "email_from_external_file" then jsGetStr profile "email"
  else if key = "phone_from_external_file" then jsGetStr profile "phone"
  else jsGetStr profile key

/-- The string case of `replacePlaceholders`: one global regex pass. -/
def jsReplaceAll (lookup : String → String) (s : String) : String :=
  String.mk (replaceTokens lookup s.data.length s.data)

/- `replacePlaceholders(obj, profile)` (script.js:379-401): strings get
the regex pass, arrays and objects are mapped element-wise preserving
shape and key order, anything else (including the falsy values the
`if (!obj)` guard returns early) passes through unchanged. -/
mutual
def replacePlaceholders : Content → Content → Content
  | .str s, profile => .str (jsReplaceAll (profileValue profile) s)
  | .arr l, profile => .arr (replacePlaceholdersList l profile)
  | .obj fs, profile => .obj (replacePlaceholdersFields fs profile)
  | c, _ => c
def replacePlaceholdersList : CList → Content → CList
  | .nil, _ => .nil
  | .cons x t, profile => .cons (replacePlaceholders x profile) (replacePlaceholdersList t profile)
def replacePlaceholdersFields : CFields → Content → CFields
  | .nil, _ => .nil
  | .cons k v t, profile => .cons k (replacePlaceholders v profile) (replacePlaceholdersFields t profile)
end

/- No string anywhere in the value contains a placeholder token
(the spec calls such a value pre-resolved). -/
mutual
def contentTokFree : Content → Bool
  | .str s => !hasToken s.data
  | .arr l => clistTokFree l
  | .obj fs => cfieldsTokFree fs
  | _ => true
def clistTokFree : CList → Bool
  | .nil => true
  | .cons x t => contentTokFree x && clistTokFree t
def cfieldsTokFree : CFields → Bool
  | .nil => true
  | .cons _ v t => contentTokFree v && cfieldsTokFree t
end

/-- Observation helper: the payload of a string value. -/
def strOf : Content → String
  | .str s => s
  | _ => ""

/-- The site settings after the merge with the hardcoded defaults. -/
structure Settings where
  defaultLanguage : String
  defaultTheme : String
  defaultAutoplay : Bool
deriving DecidableEq, Repr

/-- Hardcoded defaults (script.js:12). -/
def DEFAULT_SETTINGS : Settings :=
  { defaultLanguage := "en", defaultTheme := "dark", defaultAutoplay := false }

/-- `settings = { ...DEFAULT_SETTINGS, ...(s || {}) }` (script.js:463):
loaded fields win when present with the expected JSON type, the defaults
fill in otherwise (the spec: defaults fill any missing/invalid field). -/
def mergeSettings (doc : Option Content) : Settings :=
  let d := doc.getD .null
  { defaultLanguage :=
      match jsGet d "defaultLanguage" with
      | some (.str v) => v
      | _ => DEFAULT_SETTINGS.defaultLanguage
    defaultTheme :=
      match jsGet d "defaultTheme" with
      | some (.str v) => v
      | _ => DEFAULT_SETTINGS.defaultTheme
    defaultAutoplay :=
      match jsGet d "defaultAutoplay" with
      | some (.bool b) => b
      | _ => DEFAULT_SETTINGS.defaultAutoplay }

/-- One rendered project card: its data attributes (`data-video-id`,
`data-youtube`, `data-demo-link`, `data-project-id`, `data-title`,
`data-long`, `data-image`), its label texts, and its active state.  A
missing attribute is the empty string; every comparison the source makes
against an attribute happens with a non-empty id, for which a missing
attribute (JS `null`) and the empty string behave alike. -/
structure Card where
  videoId : String
  youtube : String
  demoLink : String
  projectId : String
  title : String
  long : String
  image : String
  titleKey : String
  descKey : String
  titleText : String
  descText : String
  ariaLabel : String
  active : Bool
  ariaPressed : Bool
deriving DecidableEq, Repr

/-- The DOM state the showcase logic reads and writes: the card grid, the
`ytFrame` iframe src, the `projectImg` src and hidden class, the
`projectDemoLink` href/hidden/text, and the selected-project panels. -/
structure Dom where
  cards : List Card
  iframeSrc : String
  imgSrc : String
  imgHidden : Bool
  demoHref : String
  demoHidden : Bool
  demoText : String
  selTitle : String
  selDesc : String
deriving DecidableEq, Repr

/-- `buildProjectCard(p, idx)` (script.js:56-115), restricted to the data
attributes and texts carried by the card (thumbnail styling, role and
technology chips carry no further state the showcase logic reads). -/
def buildProjectCard (strings p : Content) (idx : Nat) : Card :=
  let videoId := jsOr (jsGetStr p "videoId") (jsOr (jsGetStr p "video_id")
    (jsOr (jsGetStr p "youtube_id") (jsOr (jsGetStr p "youtubeId")
      (jsOr (jsGetStr p "video_url") (jsOr (jsGetStr p "embed")
        (jsOr (jsGetStr p "embed_url") ""))))))
  let ye := jsGetStr p "youtube_embed"
  let yid := jsGetStr p "youtube_id"
  let youtube :=
    if ye != "" && strIncludes ye "{{id}}" && yid != "" then strReplaceFirst ye "{{id}}" yid
    else if ye != "" && !(strIncludes ye "{{id}}") then ye
    else ""
  let demoLink := jsOr (jsGetStr p "demo_link") (jsOr (jsGetStr p "demoLink")
    (jsOr (jsGetStr p "link") (jsOr (jsGetStr p "repo_link") "")))
  let projectId := jsOr (jsGetStr p "id") ("p" ++ toString idx)
  let titleKey := jsGetStr p "titleKey"
  let descKey := jsGetStr p "descKey"
  let projectTitle := jsOr (jsGetStr p "title")
    (if titleKey != "" then jsGetStr strings titleKey else "")
  let projectLong := jsOr (jsGetStr p "long_description") (jsOr (jsGetStr p "longDescription") "")
  let titleText :=
    if titleKey != "" then jsOr (jsGetStr strings titleKey) (jsOr titleKey "Project")
    else jsOr (jsGetStr p "title") (jsOr titleKey "Project")
  let descText :=
    if descKey != "" then jsOr (jsGetStr strings descKey) (jsOr descKey "")
    else jsOr (jsGetStr p "short_description") (jsOr descKey "")
  { videoId, youtube, demoLink, projectId,
    title := projectTitle, long := projectLong, image := jsGetStr p "image",
    titleKey, descKey, titleText, descText, ariaLabel := titleText,
    active := false, ariaPressed := false }

/-- Remove the `active` class and set `aria-pressed="false"`. -/
def deactivate (c : Card) : Card := { c with active := false, ariaPressed := false }

/-- Add the `active` class and set `aria-pressed="true"`. -/
def activate (c : Card) : Card := { c with active := true, ariaPressed := true }

/-- Apply `f` to the element at position `i`, if any. -/
def modifyAt (f : Card → Card) : Nat → List Card → List Card
  | _, [] => []
  | 0, c :: t => f c :: t
  | i+1, c :: t => c :: modifyAt f i t

/-- Strip a leading `www.` (the regex `/^www\./` of script.js:287). -/
def stripWwwDot (s : String) : String :=
  if "www.".data.isPrefixOf s.data then String.mk (s.data.drop 4) else s

/-- `friendlyLabelForUrl(url)` (script.js:283-292). -/
def friendlyLabelForUrl (url : String) : String :=
  if url = "" then ""
  else
    match urlHostname url with
    | some h => stripWwwDot (jsOr h url)
    | none => url

/-- The demo-link guard the source repeats verbatim at script.js:254-262,
329-336 and 647-655: a demo URL is present, and the project id is
`kronos_live` — also when URL parsing throws — or the parsed hostname
contains the partner domain. -/
def showDemoFor (demoUrl pid : String) : Bool :=
  if demoUrl != "" then
    match urlHostname demoUrl with
    | some h => pid == "kronos_live" || strIncludes h "kronos-live.pages.dev"
    | none => pid == "kronos_live"
  else false

/-- `selectProject(card, scroll)` (script.js:311-377): re-activate exactly
the card at `i`, update the selected-project panels, re-derive the demo
link, and drive the image surface from the card's media identity.  The
`scroll` branch only scrolls and focuses, which is no modelled state. -/
def selectProject (strings : Content) (dom : Dom) (i : Nat) : Dom :=
  match dom.cards.get? i with
  | none => dom
  | some card =>
    let cards2 := modifyAt activate i (dom.cards.map deactivate)
    let dom1 := { dom with cards := cards2, selTitle := card.title, selDesc := card.long }
    let dom2 :=
      if showDemoFor card.demoLink card.projectId then
        { dom1 with demoHref := card.demoLink, demoHidden := false,
                    demoText := jsOr (friendlyLabelForUrl card.demoLink)
                      (jsOr (jsGetStr strings "open_demo")
                        (jsOr (jsGetStr strings "view_demo") "Open demo")) }
      else
        { dom1 with demoHref := "", demoHidden := true, demoText := "" }
    let vid := jsOr card.videoId (jsOr card.youtube (jsOr card.demoLink ""))
    if vid = "" ∧ card.image ≠ "" then
      { dom2 with iframeSrc := "", imgSrc := card.image, imgHidden := false }
    else
      { dom2 with imgSrc := "", imgHidden := true }

/-- The embed whitelist for external hosts (script.js:20-22). -/
def ALLOWED_EMBED_HOSTS : List String := ["kronos-live.pages.dev"]

/-- The pure classification inside `setVideo` (script.js:160-179): the
resulting `useIframe` flag and `url`.  A non-`"http"`-prefixed id
becomes a YouTube embed URL with `rel=0` and the autoplay flag; an
`"http"`-prefixed id keeps its URL and is embeddable exactly when its
hostname matches the provider patterns or the whitelist. -/
def setVideoClassify (id : String) (autoplay : Bool) : Bool × String :=
  if !(jsStartsWith id "http") then
    (true, "https://www.youtube.com/embed/" ++ id ++ "?rel=0&autoplay=" ++
      (if autoplay then "1" else "0"))
  else
    match urlHostname id with
    | some h =>
      let host := strLower h
      (strIncludes host "youtube.com" || strIncludes host "youtu.be" ||
        strIncludes host "vimeo.com" || strIncludes host "player.vimeo.com" ||
        ALLOWED_EMBED_HOSTS.contains host, id)
    | none => (false, id)

/-- Does the card match the id being shown (script.js:231)? -/
def cardMatches (c : Card) (id : String) : Bool :=
  c.videoId == id || c.demoLink == id || c.youtube == id

/-- The non-embeddable fallback inside `setVideo` (script.js:182-194):
clear the iframe and show the currently selected card's image when it
has one, else hide the image surface. -/
def setVideoNoEmbedFallback (dom : Dom) : Dom :=
  let d := { dom with iframeSrc := "" }
  let imgSrc :=
    match d.cards.find? (fun c => c.active) with
    | some sel => sel.image
    | none => ""
  if imgSrc ≠ "" then { d with imgSrc := imgSrc, imgHidden := false }
  else { d with imgHidden := true }

/-- `setVideo(id, autoplay)` (script.js:156-280).  NOTE the source's brace
placement: the `else` opened at line 166 closes only at line 279, so all
DOM updates (iframe and image surface, active classes, selected-project
panels, demo link) are reachable only when `id` starts with `"http"`;
for a non-empty bare id the function computes `url`/`useIframe` (lines
163-165) and returns without touching the DOM. -/
def setVideo (strings : Content) (dom : Dom) (id : String) (autoplay : Bool) : Dom :=
  if id = "" then { dom with iframeSrc := "" }
  else if !(jsStartsWith id "http") then
    dom
  else
    let cls := setVideoClassify id autoplay
    let useIframe := cls.1
    let url := cls.2
    let dom1 :=
      if !useIframe then
        setVideoNoEmbedFallback dom
      else
        -- the load/error listeners and the 1.6s timeout scheduled here are
        -- modelled by `setVideoTimeoutStep`, fired later with this `id`
        { dom with imgSrc := "", imgHidden := true, iframeSrc := url }
    let cards2 := dom1.cards.map (fun c => if cardMatches c id then activate c else deactivate c)
    let dom2 := { dom1 with cards := cards2 }
    match dom2.cards.find? (fun c => c.active) with
    | none => dom2
    | some sel =>
      let dom3 := { dom2 with selTitle := sel.title, selDesc := sel.long }
      if showDemoFor sel.demoLink sel.projectId then
        { dom3 with demoHref := sel.demoLink, demoHidden := false,
                    demoText := jsOr (jsGetStr strings "open_demo")
                      (jsOr (jsGetStr strings "view_demo") "Open demo") }
      else
        { dom3 with demoHref := "", demoHidden := true, demoText := "" }

/-- Modelled from the spec: `hostIncludesYouTube`, called by the
embed-failure timeout (script.js:207), is defined nowhere in the
available sources.  Per §4.4 the timeout treats an embed as failed when
"the identity was an external URL not matching the video-provider
patterns", so the helper is modelled as: the identity's hostname
matches the YouTube provider patterns. -/
def hostIncludesYouTube (id : String) : Bool :=
  match urlHostname id with
  | some h => strIncludes h "youtube.com" || strIncludes h "youtu.be"
  | none => false

/-- The 1.6s embed-failure timeout callback (script.js:206-227), fired
with the `id` captured when `setVideo` attempted the embed;
`iframeLoaded` says whether the iframe signalled `load` first.  When it
acts it clears the iframe, un-hides the image if one is set, and
reveals the demo link when the card carrying this demo URL is the
designated project — regardless of which card is active by now. -/
def setVideoTimeoutStep (dom : Dom) (id : String) (iframeLoaded : Bool) : Dom :=
  if !iframeLoaded && jsStartsWith id "http" && !hostIncludesYouTube id then
    let d1 := { dom with iframeSrc := "" }
    let d2 := if d1.imgSrc ≠ "" then { d1 with imgHidden := false } else d1
    let showDemo : Bool :=
      match d2.cards.find? (fun c => c.demoLink == id) with
      | some m =>
        m.projectId == "kronos_live" ||
          (match urlHostname id with
           | some h => strIncludes h "kronos-live.pages.dev"
           | none => false)
      | none => false
    if showDemo then { d2 with demoHidden := false } else d2
  else dom

/-- `activateCard(card)` (script.js:295-308): derive the media identity
from the card attributes (video id, else youtube embed, else demo
link), select the card, then `setVideo` with the configured autoplay
(`settings.defaultAutoplay || false`). -/
def activateCard (strings : Content) (settings : Settings) (dom : Dom) (i : Nat) : Dom :=
  match dom.cards.get? i with
  | none => dom
  | some card =>
    let vid := jsOr card.videoId (jsOr card.youtube "")
    let dom1 := selectProject strings dom i
    if vid = "" ∧ card.demoLink = "" then setVideo strings dom1 "" false
    else
      let vid2 := if vid = "" then card.demoLink else vid
      setVideo strings dom1 vid2 settings.defaultAutoplay

/-- The cards `renderProjects` builds from the project list. -/
def buildCards (strings : Content) : Nat → CList → List Card
  | _, .nil => []
  | idx, .cons p t => buildProjectCard strings p idx :: buildCards strings (idx + 1) t

/-- `renderProjects()` (script.js:117-150): rebuild the card grid, select
the first card without scrolling, and when it has a media identity call
`setVideo` with the configured autoplay flag. -/
def renderProjects (strings : Content) (settings : Settings) (projects : CList) (dom : Dom) : Dom :=
  let cards := buildCards strings 0 projects
  let dom1 := { dom with cards := cards }
  match cards with
  | [] => dom1
  | c0 :: _ =>
    let dom2 := selectProject strings dom1 0
    let firstVid := jsOr c0.videoId (jsOr c0.youtube (jsOr c0.demoLink ""))
    if firstVid ≠ "" then setVideo strings dom2 firstVid settings.defaultAutoplay else dom2

/-- The per-card label refresh of `updateProjectLabels` (script.js:630-639). -/
def updateCardLabels (strings : Content) (c : Card) : Card :=
  let t2 := if c.titleKey ≠ "" then jsOr (jsGetStr strings c.titleKey) c.titleKey else c.titleText
  let d2 := if c.descKey ≠ "" then jsOr (jsGetStr strings c.descKey) c.descKey else c.descText
  { c with titleText := t2, descText := d2, ariaLabel := t2 }

/-- `updateProjectLabels()` (script.js:629-668): refresh the card label
texts from the current strings and re-derive the demo-link presentation
from the active card (its href is left as it is). -/
def updateProjectLabels (strings : Content) (dom : Dom) : Dom :=
  let cards2 := dom.cards.map (updateCardLabels strings)
  let dom1 := { dom with cards := cards2 }
  match dom1.cards.find? (fun c => c.active) with
  | some a =>
    if showDemoFor a.demoLink a.projectId then
      { dom1 with demoHidden := false,
                  demoText := jsOr (friendlyLabelForUrl a.demoLink)
                    (jsOr (jsGetStr strings "open_demo")
                      (jsOr (jsGetStr strings "view_demo") "Open demo")) }
    else { dom1 with demoHidden := true, demoText := "" }
  | none => { dom1 with demoHidden := true, demoText := "" }

/-- JS `a || b` where `a` is a loaded document (`none` plays `null`). -/
def jsOrElse (a : Option Content) (b : Content) : Content :=
  match a with
  | some v => if jsTruthy v then v else b
  | none => b

/-- Is the loaded document truthy (`c` in `if (!c) ...`)? -/
def optTruthy (o : Option Content) : Bool :=
  match o with
  | some v => jsTruthy v
  | none => false

/-- The five documents `loadSettingsAndContent` fetches, each either the
parsed JSON value or `none` for a failed load. -/
structure FetchedDocs where
  settingsDoc : Option Content
  localeDoc : Option Content
  templateDoc : Option Content
  profileDoc : Option Content
  projectsDoc : Option Content

/-- Lines 467-471: the locale document, falling back to the template
document, falling back to `{}`. -/
def rawStrings (d : FetchedDocs) : Content :=
  jsOrElse (if optTruthy d.localeDoc then d.localeDoc else d.templateDoc) (.obj .nil)

/-- Line 475: `profile = prof || {}`. -/
def profileOf (d : FetchedDocs) : Content := jsOrElse d.profileDoc (.obj .nil)

/-- Empty array test (`strings.projects.length` falsy). -/
def CList.isNil : CList → Bool
  | .nil => true
  | .cons _ _ => false

/-- Lines 497-505: the parsed `projects.json` if it is a non-empty array,
else the built-in two-item sample list. -/
def fileProjects (d : FetchedDocs) : CList :=
  let p :=
    match d.projectsDoc with
    | some (.arr l) => l
    | _ => .nil
  match p with
  | .nil =>
    .cons (.obj (.cons "id" (.str "sample1") (.cons "videoId" (.str "")
      (.cons "titleKey" (.str "proj1_title") (.cons "descKey" (.str "proj1_desc") .nil)))))
      (.cons (.obj (.cons "id" (.str "sample2") (.cons "videoId" (.str "")
        (.cons "titleKey" (.str "proj2_title") (.cons "descKey" (.str "proj2_desc") .nil))))) .nil)
  | l => l

/-- JS `obj[k] = v`: update the value in place, else append the key
(a no-op on non-objects, as in non-strict JS). -/
def CFields.setKey : CFields → String → Content → CFields
  | .nil, k, v => .cons k v .nil
  | .cons k0 v0 t, k, v => if k0 = k then .cons k0 v t else .cons k0 v0 (t.setKey k v)

/-- JS property assignment on a JSON value. -/
def objSet (c : Content) (k : String) (v : Content) : Content :=
  match c with
  | .obj fs => .obj (fs.setKey k v)
  | _ => c

/-- Lines 515-516 (and 538-539 on the locale path): alias back-fill for
`download_cv` and `name`. -/
def backfillAliases (strings profile : Content) : Content :=
  let s1 :=
    if !(jsTruthy (jsGetD strings "download_cv")) && jsTruthy (jsGetD strings "download_cv_text")
    then objSet strings "download_cv" (jsGetD strings "download_cv_text") else strings
  if !(jsTruthy (jsGetD s1 "name")) && jsTruthy profile && jsTruthy (jsGetD profile "fullName")
  then objSet s1 "name" (jsGetD profile "fullName") else s1

/-- The module-scope state the assembler produces. -/
structure AppState where
  settings : Settings
  strings : Content
  profile : Content
  projects : CList

/-- The in-memory content assembly of `loadSettingsAndContent()`
(script.js:461-517), as a pure function of the five fetched documents
(its direct DOM writes — document title, alt texts, CV link — are
outside the modelled state).  The projects override (lines 508-509)
reads the strings document BEFORE placeholder resolution and resolves
the override array once; the document itself is resolved afterwards
(line 513). -/
def loadSettingsAndContent (d : FetchedDocs) : AppState :=
  let settings := mergeSettings d.settingsDoc
  let strings0 := rawStrings d
  let profile := profileOf d
  let projects0 := fileProjects d
  let projects :=
    match jsGet strings0 "projects" with
    | some (.arr l) => if l.isNil then projects0 else replacePlaceholdersList l profile
    | _ => projects0
  let strings1 := replacePlaceholders strings0 profile
  { settings, strings := backfillAliases strings1 profile, profile, projects }

/-- The in-memory part of the locale-change path `applyLanguageChange(v)`
(script.js:530-560): reload strings for the new locale with template
fallback, resolve, back-fill aliases, then re-read the projects
override.  NOTE the override check here (line 541) runs on the
ALREADY-RESOLVED strings document, so the projects array it assigns is
resolved a second time. -/
def applyLanguageChange (localeDoc templateDoc : Option Content) (st : AppState) : AppState :=
  let strings0 := jsOrElse (if optTruthy localeDoc then localeDoc else templateDoc) (.obj .nil)
  let strings1 := replacePlaceholders strings0 st.profile
  let strings2 := backfillAliases strings1 st.profile
  let projects :=
    match jsGet strings2 "projects" with
    | some (.arr l) => if l.isNil then st.projects else replacePlaceholdersList l st.profile
    | _ => st.projects
  { st with strings := strings2, projects := projects }

/-- Outcome of `fetch(path)`: a network failure, or a response carrying
its `ok` flag and body text. -/
inductive FetchOutcome where
  | netErr
  | httpRes (ok : Bool) (body : String)

/-- The body of `loadJson` before its `catch` (script.js:2-5): each
failure mode is a thrown exception (`Except.error`). -/
def loadJsonBody (parse : String → Option Content) : FetchOutcome → Except String Content
  | .netErr => .error "fetch failed"
  | .httpRes ok body =>
    if !ok then .error "HTTP status"
    else
      match parse body with
      | some v => .ok v
      | none => .error "invalid JSON"

/-- `loadJson(path)` (script.js:1-10): the `catch` turns every thrown
failure into a `console.warn` plus `null` (`none`); JSON parsing is an
explicit parameter, `parse body = none` standing for a malformed body. -/
def loadJson (parse : String → Option Content) (o : FetchOutcome) : Option Content :=
  match loadJsonBody parse o with
  | .ok v => some v
  | .error _ => none

/-- The modelled page before `renderProjects` first runs: no cards, empty
media surfaces, image and demo link hidden. -/
def initialDom : Dom :=
  { cards := [], iframeSrc := "", imgSrc := "", imgHidden := true,
    demoHref := "", demoHidden := true, demoText := "", selTitle := "", selDesc := "" }

/-- Follows the spec's words ("does not start with a URI scheme"): the
string begins with an RFC 3986 scheme — a letter, then letters, digits,
`+`, `-` or `.`, then a colon. -/
def specStartsWithUriScheme (s : String) : Bool :=
  let pre := s.data.takeWhile (fun c => c != ':')
  !pre.isEmpty && pre.length < s.data.length && pre.headI.isAlpha && pre.all isSchemeChar

/-- The designated-external-demo condition, spelled out: a demo URL is
present and either the project id is the fixed identifier or the URL's
hostname contains the fixed partner domain as a substring. -/
def demoEligible (c : Card) : Bool :=
  c.demoLink != "" &&
    (c.projectId == "kronos_live" ||
      (match urlHostname c.demoLink with
       | some h => strIncludes h "kronos-live.pages.dev"
       | none => false))

/-- The visibility invariant of the external demo affordance: whenever it
is visible, the first active card is the designated project. -/
def DemoInv (dom : Dom) : Prop :=
  dom.demoHidden = false →
    ∃ a, dom.cards.find? (fun c => c.active) = some a ∧ demoEligible a = true

/-- Settings of the end-to-end scenarios (also the defaults). -/
def scenarioASettings : Settings :=
  { defaultLanguage := "en", defaultTheme := "dark", defaultAutoplay := false }

/-- Scenario A project list: a YouTube project and an image project. -/
def scenarioAProjects : CList :=
  .cons (.obj (.cons "id" (.str "a") (.cons "videoId" (.str "abc123") .nil)))
    (.cons (.obj (.cons "id" (.str "b") (.cons "image" (.str "b.png") .nil))) .nil)

/-- The page state right after the initial render of scenario A. -/
def scenarioADom : Dom := renderProjects (.obj .nil) scenarioASettings scenarioAProjects initialDom

/-- The partner demo URL of the stale-timeout scenario. -/
def kronosUrl : String := "https://kronos-live.pages.dev/app"

/-- Stale-timeout scenario: the designated partner project followed by a
plain YouTube project. -/
def staleProjects : CList :=
  .cons (.obj (.cons "id" (.str "kronos_live") (.cons "title" (.str "Kronos")
      (.cons "demo_link" (.str kronosUrl) .nil))))
    (.cons (.obj (.cons "id" (.str "a") (.cons "title" (.str "A")
      (.cons "videoId" (.str "abc") .nil)))) .nil)

/-- Initial render: the partner project is selected and its URL embedded;
the 1.6s timeout is now pending with `kronosUrl` captured. -/
def staleDom0 : Dom := renderProjects (.obj .nil) scenarioASettings staleProjects initialDom

/-- The user selects the second project before the timeout fires. -/
def staleDom1 : Dom := activateCard (.obj .nil) scenarioASettings staleDom0 1

/-- The pending timeout fires (the kronos iframe never signalled load). -/
def staleDom2 : Dom := setVideoTimeoutStep staleDom1 kronosUrl false

/-- A URL whose hostname merely CONTAINS the partner domain. -/
def lookalikeUrl : String := "https://kronos-live.pages.dev.evil.example/"

/-- A project that is not the designated partner project but carries the
lookalike demo URL. -/
def lookalikeCard : Card :=
  buildProjectCard (.obj .nil)
    (.obj (.cons "id" (.str "evil") (.cons "demo_link" (.str lookalikeUrl) .nil))) 0

/-- Selecting the lookalike project. -/
def lookalikeDom : Dom :=
  selectProject (.obj .nil) { initialDom with cards := [lookalikeCard] } 0

/-- A profile whose values themselves contain placeholder tokens. -/
def chainProfile : Content := .obj (.cons "a" (.str "{{b}}") (.cons "b" (.str "x") .nil))

/-- A strings document whose projects array carries a placeholder that
resolves to another placeholder under `chainProfile`. -/
def chainDoc : Content :=
  .obj (.cons "projects" (.arr (.cons (.obj (.cons "title" (.str "{{a}}") .nil)) .nil)) .nil)

/-- A module state in which the locale change of the chain scenario runs. -/
def chainSt : AppState :=
  { settings := DEFAULT_SETTINGS, strings := .obj .nil, profile := chainProfile, projects := .nil }

/-- First element of an array value (observation helper). -/
def CList.headVal : CList → Content
  | .nil => .null
  | .cons x _ => x

/-- The projects array of a resolved strings document (observation
helper; `.nil` when there is none). -/
def projectsArrOf (c : Content) : CList :=
  match jsGet c "projects" with
  | some (.arr l) => l
  | _ => .nil

/-! ## Theorems -/

theorem replaceTokens_nil (lookup : String → String) (fuel : Nat) :
    replaceTokens lookup fuel [] = [] := by
  cases fuel <;> rfl

theorem takeWhile_append_stop (l r : List Char) (h : ∀ c ∈ l, (c != '}') = true) :
    (l ++ '}' :: r).takeWhile (fun ch => ch != '}') = l := by
  induction l with
  | nil => simp
  | cons c t ih =>
    simp only [List.cons_append, List.takeWhile_cons, h c (List.mem_cons_self c t)]
    exact congrArg (c :: ·) (ih fun x hx => h x (List.mem_cons_of_mem c hx))

/-- Evaluating the scanner on a well-formed token at the head: the token
is consumed as one match and replaced with the lookup of its key. -/
theorem replaceTokens_token (lookup : String → String) (fuel : Nat) (key rest : List Char)
    (hk : key ≠ []) (hnb : ∀ c ∈ key, (c != '}') = true) :
    replaceTokens lookup (fuel + 1) ('{' :: '{' :: (key ++ '}' :: '}' :: rest)) =
      (lookup (jsTrim (String.mk key))).data ++ replaceTokens lookup fuel rest := by
  have hbody : (key ++ '}' :: '}' :: rest).takeWhile (fun ch => ch != '}') = key :=
    takeWhile_append_stop key ('}' :: rest) hnb
  have hdrop : (key ++ '}' :: '}' :: rest).drop key.length = '}' :: '}' :: rest :=
    List.drop_left key ('}' :: '}' :: rest)
  simp only [replaceTokens, List.take, List.drop, hbody, hdrop]
  simp [hk]

theorem c9_loadJson_never_raises_aux (parse : String → Option Content) (body : String) :
    loadJson parse (.httpRes true body) = parse body := by
  cases h : parse body <;> simp [loadJson, loadJsonBody, h]

/-- C9: `loadJson` never raises to its caller: a network error or a
non-success HTTP status yields `none` (after the warning side channel),
and on a successful response the result is exactly what JSON parsing
yields — the parsed value, or `none` again when the body is malformed
(`parse body = none`).  Totality of `loadJson` is the "never raises"
guarantee; `loadJsonBody` carries the thrown exceptions, and the final
`match` is the `catch`. -/
theorem c9_loadJson_contract :
    ∀ (parse : String → Option Content) (body : String),
      loadJson parse .netErr = none ∧
      loadJson parse (.httpRes false body) = none ∧
      loadJson parse (.httpRes true body) = parse body := by
  intro parse body
  exact ⟨rfl, rfl, c9_loadJson_never_raises_aux parse body⟩

/-- C1 (code bug): in scenario A the initial render does make project
`"a"` the active project, but the iframe src stays empty instead of
becoming the YouTube embed URL: `setVideo("abc123", false)` computes the
URL and returns, because every DOM write of `setVideo` sits inside the
`else` branch taken only for `"http"`-prefixed identities
(script.js:166-279).  This contradicts the function's own header comment
("Set the iframe to YouTube or arbitrary URL") and the README's
advertised YouTube embeds. -/
theorem c1_initial_render_code_bug :
    (scenarioADom.cards.find? (fun c => c.active)).map (fun c => c.projectId) = some "a" ∧
    scenarioADom.iframeSrc = "" ∧
    scenarioADom.iframeSrc ≠ "https://www.youtube.com/embed/abc123?rel=0&autoplay=0" := by
  decide

/-- C8 (code bug): the pending 1.6s embed-failure timeout of the first
(kronos) selection fires after the user has already selected project
`"a"`, and it clears the media surface and reveals the kronos demo
affordance even though `"a"` is the active project — a stale overwrite
of the newer selection's state (nothing cancels or re-checks the
timeout; `hostIncludesYouTube` is modelled from the spec). -/
theorem c8_stale_timeout_code_bug :
    (staleDom1.cards.find? (fun c => c.active)).map (fun c => c.projectId) = some "a" ∧
    staleDom1.demoHidden = true ∧
    staleDom1.iframeSrc = kronosUrl ∧
    (staleDom2.cards.find? (fun c => c.active)).map (fun c => c.projectId) = some "a" ∧
    staleDom2.demoHidden = false ∧
    staleDom2.iframeSrc = "" ∧
    ("a" : String) ≠ "kronos_live" := by
  decide

/-- C10: the implicit frame property of `setVideo`.  For a non-empty
identity that does not start with `"http"`, `setVideo` changes nothing
at all — in particular the iframe src, every card's active class and
`aria-pressed` attribute, and the selected-project panels stay as they
were; all those effects live in the branch taken for `"http"`-prefixed
identities, plus the clear-on-empty guard. -/
theorem c10_setVideo_frame (strings : Content) (dom : Dom) (id : String) (autoplay : Bool)
    (h1 : id ≠ "") (h2 : jsStartsWith id "http" = false) :
    setVideo strings dom id autoplay = dom := by
  simp [setVideo, h1, h2]

theorem c10_setVideo_frame_witness :
    ("abc123" : String) ≠ "" ∧ jsStartsWith "abc123" "http" = false ∧
    setVideo (.obj .nil) scenarioADom "abc123" false = scenarioADom :=
  ⟨by decide, by decide,
    c10_setVideo_frame (.obj .nil) scenarioADom "abc123" false (by decide) (by decide)⟩

/-- C2 (counterexample): the identity `"httpabc"` does not start with any
URI scheme (there is no colon), yet the classification does not select
embed mode and does not build an embed URL: the code's test is the
literal prefix `"http"`, so `"httpabc"` is sent to URL parsing, which
throws, leaving `useIframe = false`. -/
theorem c2_counterexample :
    specStartsWithUriScheme "httpabc" = false ∧
    (setVideoClassify "httpabc" false).1 = false ∧
    (setVideoClassify "httpabc" true).1 = false ∧
    jsStartsWith (setVideoClassify "httpabc" false).2 "https://www.youtube.com/embed/" = false := by
  decide

/-- C2 (amended): for every identity that is non-empty and does not start
with the literal prefix `"http"` (the test the code performs), the
classification selects embed mode and builds
`https://www.youtube.com/embed/<id>?rel=0&autoplay=<0|1>`, where the
flag is `1` exactly when `settings.defaultAutoplay` is true — the flag
`activateCard` passes down. -/
theorem c2_amended_bare_id_embed (settings : Settings) (id : String)
    (h1 : id ≠ "") (h2 : jsStartsWith id "http" = false) :
    setVideoClassify id settings.defaultAutoplay =
      (true, "https://www.youtube.com/embed/" ++ id ++ "?rel=0&autoplay=" ++
        (if settings.defaultAutoplay then "1" else "0")) := by
  simp [setVideoClassify, h2]

theorem c2_amended_witness :
    ("abc123" : String) ≠ "" ∧ jsStartsWith "abc123" "http" = false ∧
    setVideoClassify "abc123" true =
      (true, "https://www.youtube.com/embed/abc123?rel=0&autoplay=1") :=
  ⟨by decide, by decide,
    c2_amended_bare_id_embed { defaultLanguage := "en", defaultTheme := "dark", defaultAutoplay := true }
      "abc123" (by decide) (by decide)⟩

/-- C4 (counterexample): the resolver is not idempotent.  Under the
profile `{a: "{{b}}", b: "x"}`, resolving `"{{a}}"` once yields
`"{{b}}"`, and resolving again yields `"x"`. -/
theorem c4_counterexample :
    strOf (replacePlaceholders (.str "{{a}}") chainProfile) = "{{b}}" ∧
    strOf (replacePlaceholders (replacePlaceholders (.str "{{a}}") chainProfile) chainProfile) = "x" ∧
    ("x" : String) ≠ "{{b}}" := by
  decide

/-- C7 (counterexample): selecting a project whose demo URL's hostname
merely CONTAINS the partner domain (`kronos-live.pages.dev.evil.example`)
reveals the external affordance, although the project id is not
`kronos_live` and the hostname does not equal (match) the partner
domain: the code tests `hostname.includes('kronos-live.pages.dev')`. -/
theorem c7_counterexample :
    lookalikeDom.demoHidden = false ∧
    (lookalikeDom.cards.find? (fun c => c.active)).map (fun c => c.projectId) = some "evil" ∧
    ("evil" : String) ≠ "kronos_live" ∧
    urlHostname lookalikeCard.demoLink = some "kronos-live.pages.dev.evil.example" ∧
    ("kronos-live.pages.dev.evil.example" : String) ≠ "kronos-live.pages.dev" := by
  decide

/-- C3 (counterexample): with profile `{a: "{{b}}", b: "x"}` and a locale
document whose projects array is `[{title: "{{a}}"}]`, the resolved
strings document's projects array has title `"{{b}}"`, but the project
list held in memory after the locale change has title `"x"`: the locale
path re-resolves the already-resolved array (script.js:536 then 541), so
the in-memory list does not equal the resolved document's array. -/
theorem c3_counterexample :
    (projectsArrOf (replacePlaceholders chainDoc chainProfile)).isNil = false ∧
    strOf (jsGetD ((projectsArrOf (replacePlaceholders chainDoc chainProfile)).headVal) "title") = "{{b}}" ∧
    strOf (jsGetD (((applyLanguageChange (some chainDoc) none chainSt).projects).headVal) "title") = "x" ∧
    ("x" : String) ≠ "{{b}}" := by
  decide

theorem jsReplaceAll_single_token (lookup : String → String) (key : String)
    (hk : key ≠ "") (hnb : ∀ c ∈ key.data, (c != '}') = true) :
    jsReplaceAll lookup ("\x7b\x7b" ++ key ++ "\x7d\x7d") = lookup (jsTrim key) := by
  have hkd : key.data ≠ [] := by
    intro h
    apply hk
    have he : key = String.mk key.data := rfl
    rw [he, h]
  have hdat : ("\x7b\x7b" ++ key ++ "\x7d\x7d").data = '{' :: '{' :: (key.data ++ '}' :: '}' :: []) := by
    simp [String.data_append]
  unfold jsReplaceAll
  rw [hdat]
  have hlen : ('{' :: '{' :: (key.data ++ '}' :: '}' :: ([] : List Char))).length =
      (key.data.length + 3) + 1 := by
    simp
  rw [hlen, replaceTokens_token lookup (key.data.length + 3) key.data [] hkd hnb,
    replaceTokens_nil, List.append_nil]

/-- C5: resolving a single well-formed placeholder `{{key}}` (a non-empty
key with no `}` and no surrounding whitespace, so that the regex
actually matches the marker).  For a non-alias key the profile lacks,
the result is the empty string, never the literal token; and the three
fixed aliases read `profile.fullName` / `profile.email` /
`profile.phone`, taking priority over a direct lookup of the alias name
(the equations hold for every profile, also one that binds the alias
name directly). -/
theorem c5_placeholder_lookup :
    (∀ (profile : Content) (key : String),
        key ≠ "" →
        (∀ c ∈ key.data, (c != '}') = true) →
        jsTrim key = key →
        key ≠ "full_name_from_external_file" →
        key ≠ "email_from_external_file" →
        key ≠ "phone_from_external_file" →
        jsGet profile key = none →
        replacePlaceholders (.str ("\x7b\x7b" ++ key ++ "\x7d\x7d")) profile = .str "") ∧
    (∀ profile : Content,
        replacePlaceholders (.str "{{full_name_from_external_file}}") profile =
          .str (jsGetStr profile "fullName") ∧
        replacePlaceholders (.str "{{email_from_external_file}}") profile =
          .str (jsGetStr profile "email") ∧
        replacePlaceholders (.str "{{phone_from_external_file}}") profile =
          .str (jsGetStr profile "phone")) := by
  constructor
  · intro profile key hk hnb htrim hna hnb2 hnc hmiss
    show Content.str (jsReplaceAll (profileValue profile) ("\x7b\x7b" ++ key ++ "\x7d\x7d")) = Content.str ""
    rw [jsReplaceAll_single_token _ key hk hnb, htrim]
    simp only [profileValue, if_neg hna, if_neg hnb2, if_neg hnc]
    simp [jsGetStr, hmiss]
  · intro profile
    refine ⟨?_, ?_, ?_⟩
    · show Content.str (jsReplaceAll (profileValue profile)
        ("\x7b\x7b" ++ "full_name_from_external_file" ++ "\x7d\x7d")) = _
      rw [jsReplaceAll_single_token _ "full_name_from_external_file" (by decide) (by decide)]
      rfl
    · show Content.str (jsReplaceAll (profileValue profile)
        ("\x7b\x7b" ++ "email_from_external_file" ++ "\x7d\x7d")) = _
      rw [jsReplaceAll_single_token _ "email_from_external_file" (by decide) (by decide)]
      rfl
    · show Content.str (jsReplaceAll (profileValue profile)
        ("\x7b\x7b" ++ "phone_from_external_file" ++ "\x7d\x7d")) = _
      rw [jsReplaceAll_single_token _ "phone_from_external_file" (by decide) (by decide)]
      rfl

theorem c5_placeholder_lookup_witness :
    replacePlaceholders (.str "{{unknown}}") (.obj (.cons "x" (.str "v") .nil)) = .str "" ∧
    replacePlaceholders (.str "{{full_name_from_external_file}}")
      (.obj (.cons "full_name_from_external_file" (.str "direct")
        (.cons "fullName" (.str "Adam") .nil))) = .str "Adam" :=
  ⟨c5_placeholder_lookup.1 (.obj (.cons "x" (.str "v") .nil)) "unknown"
      (by decide) (by decide) (by decide) (by decide) (by decide) (by decide) rfl,
    (c5_placeholder_lookup.2 (.obj (.cons "full_name_from_external_file" (.str "direct")
      (.cons "fullName" (.str "Adam") .nil)))).1⟩

theorem replaceTokens_of_hasTokenAux_false (lookup : String → String) :
    ∀ (fuel : Nat) (l : List Char), l.length ≤ fuel → hasTokenAux fuel l = false →
      replaceTokens lookup fuel l = l := by
  intro fuel
  induction fuel with
  | zero =>
    intro l hl _
    cases l with
    | nil => rfl
    | cons c t => simp at hl
  | succ f ih =>
    intro l hl ht
    cases l with
    | nil => rfl
    | cons c rest =>
      have hlr : rest.length ≤ f := by
        simp only [List.length_cons] at hl
        omega
      by_cases hc : c = '{' ∧ rest.take 1 = ['{']
      · by_cases hs :
            ((rest.drop 1).drop (((rest.drop 1).takeWhile (fun ch => ch != '}')).length)).take 2 =
                ['}', '}'] ∧
              ((rest.drop 1).takeWhile (fun ch => ch != '}')) ≠ []
        · exfalso
          have htrue : hasTokenAux (f + 1) (c :: rest) = true := by
            simp only [hasTokenAux, if_pos hc, if_pos hs]
          rw [ht] at htrue
          exact Bool.false_ne_true htrue
        · have ht2 : hasTokenAux f rest = false := by
            simpa only [hasTokenAux, if_pos hc, if_neg hs] using ht
          simp only [replaceTokens, if_pos hc, if_neg hs]
          rw [ih rest hlr ht2]
      · have ht2 : hasTokenAux f rest = false := by
          simpa only [hasTokenAux, if_neg hc] using ht
        simp only [replaceTokens, if_neg hc]
        rw [ih rest hlr ht2]

theorem jsReplaceAll_of_tokFree (lookup : String → String) (s : String)
    (h : hasToken s.data = false) :
    jsReplaceAll lookup s = s := by
  unfold jsReplaceAll
  unfold hasToken at h
  rw [replaceTokens_of_hasTokenAux_false lookup s.data.length s.data (le_refl _) h]

/- Token-free values are fixed points of the resolver (the mutual walk
changes nothing when no string matches the placeholder regex). -/
mutual
theorem tokFree_fix : ∀ (x p : Content), contentTokFree x = true → replacePlaceholders x p = x
  | .null, _, _ => rfl
  | .bool _, _, _ => rfl
  | .num _, _, _ => rfl
  | .str s, p, h => by
    have hs : hasToken s.data = false := by simpa [contentTokFree] using h
    show Content.str (jsReplaceAll (profileValue p) s) = Content.str s
    rw [jsReplaceAll_of_tokFree _ s hs]
  | .arr l, p, h => by
    show Content.arr (replacePlaceholdersList l p) = Content.arr l
    rw [tokFree_fixList l p (by simpa [contentTokFree] using h)]
  | .obj fs, p, h => by
    show Content.obj (replacePlaceholdersFields fs p) = Content.obj fs
    rw [tokFree_fixFields fs p (by simpa [contentTokFree] using h)]
theorem tokFree_fixList : ∀ (l : CList) (p : Content), clistTokFree l = true →
    replacePlaceholdersList l p = l
  | .nil, _, _ => rfl
  | .cons x t, p, h => by
    have hx : contentTokFree x = true := by
      have := h; simp [clistTokFree, Bool.and_eq_true] at this; exact this.1
    have ht : clistTokFree t = true := by
      have := h; simp [clistTokFree, Bool.and_eq_true] at this; exact this.2
    show CList.cons (replacePlaceholders x p) (replacePlaceholdersList t p) = CList.cons x t
    rw [tokFree_fix x p hx, tokFree_fixList t p ht]
theorem tokFree_fixFields : ∀ (fs : CFields) (p : Content), cfieldsTokFree fs = true →
    replacePlaceholdersFields fs p = fs
  | .nil, _, _ => rfl
  | .cons k v t, p, h => by
    have hv : contentTokFree v = true := by
      have := h; simp [cfieldsTokFree, Bool.and_eq_true] at this; exact this.1
    have ht : cfieldsTokFree t = true := by
      have := h; simp [cfieldsTokFree, Bool.and_eq_true] at this; exact this.2
    show CFields.cons k (replacePlaceholders v p) (replacePlaceholdersFields t p) = CFields.cons k v t
    rw [tokFree_fix v p hv, tokFree_fixFields t p ht]
end

/-- C4 (amended): the resolver is idempotent on pre-resolved content:
for every content value none of whose strings contains a placeholder
token, `replacePlaceholders(replacePlaceholders(x, p), p) =
replacePlaceholders(x, p)` for every profile (indeed one pass is already
the identity there).  The restriction to pre-resolved content is forced
by `c4_counterexample`. -/
theorem c4_amended_idempotent_on_preresolved (x p : Content) (h : contentTokFree x = true) :
    replacePlaceholders (replacePlaceholders x p) p = replacePlaceholders x p := by
  rw [tokFree_fix x p h, tokFree_fix x p h]

theorem c4_amended_witness :
    contentTokFree (.arr (.cons (.str "plain text") (.cons (.obj (.cons "k" (.str "v") .nil)) .nil))) = true ∧
    replacePlaceholders (replacePlaceholders
        (.arr (.cons (.str "plain text") (.cons (.obj (.cons "k" (.str "v") .nil)) .nil))) chainProfile) chainProfile =
      replacePlaceholders
        (.arr (.cons (.str "plain text") (.cons (.obj (.cons "k" (.str "v") .nil)) .nil))) chainProfile :=
  ⟨by decide,
    c4_amended_idempotent_on_preresolved
      (.arr (.cons (.str "plain text") (.cons (.obj (.cons "k" (.str "v") .nil)) .nil)))
      chainProfile (by decide)⟩

theorem findVal_rpFields : ∀ (fs : CFields) (p : Content) (k : String),
    (replacePlaceholdersFields fs p).findVal k =
      (fs.findVal k).map (fun v => replacePlaceholders v p)
  | .nil, _, _ => rfl
  | .cons k0 v t, p, k => by
    show CFields.findVal (.cons k0 (replacePlaceholders v p) (replacePlaceholdersFields t p)) k = _
    by_cases h : k0 = k <;> simp [CFields.findVal, h, findVal_rpFields t p k]

theorem jsGet_rp (c p : Content) (k : String) :
    jsGet (replacePlaceholders c p) k = (jsGet c k).map (fun v => replacePlaceholders v p) := by
  cases c with
  | obj fs => exact findVal_rpFields fs p k
  | null => rfl
  | bool b => rfl
  | num n => rfl
  | str s => rfl
  | arr l => rfl

theorem rp_eq_arr (v p : Content) (A : CList) (h : replacePlaceholders v p = .arr A) :
    ∃ l0, v = .arr l0 ∧ A = replacePlaceholdersList l0 p := by
  cases v with
  | arr l =>
    refine ⟨l, rfl, ?_⟩
    have : Content.arr (replacePlaceholdersList l p) = Content.arr A := h
    injection this with h2
    exact h2.symm
  | null => exact absurd h (by simp [replacePlaceholders])
  | bool b => exact absurd h (by simp [replacePlaceholders])
  | num n => exact absurd h (by simp [replacePlaceholders])
  | str s => exact absurd h (by simp [replacePlaceholders])
  | obj fs => exact absurd h (by simp [replacePlaceholders])

theorem rpList_isNil (l : CList) (p : Content) :
    (replacePlaceholdersList l p).isNil = l.isNil := by
  cases l <;> rfl

theorem findVal_setKey_ne : ∀ (fs : CFields) (k k2 : String) (v : Content), k2 ≠ k →
    (fs.setKey k v).findVal k2 = fs.findVal k2
  | .nil, k, k2, v, h => by
    have hne : ¬(k = k2) := fun hh => h hh.symm
    simp [CFields.setKey, CFields.findVal, hne]
  | .cons k0 v0 t, k, k2, v, h => by
    have hne : ¬(k = k2) := fun hh => h hh.symm
    by_cases h0 : k0 = k
    · subst h0
      simp [CFields.setKey, CFields.findVal, hne]
    · simp only [CFields.setKey, if_neg h0]
      by_cases h2 : k0 = k2 <;> simp [CFields.findVal, h2, findVal_setKey_ne t k k2 v h]

theorem jsGet_objSet_ne (c : Content) (k k2 : String) (v : Content) (h : k2 ≠ k) :
    jsGet (objSet c k v) k2 = jsGet c k2 := by
  cases c with
  | obj fs => exact findVal_setKey_ne fs k k2 v h
  | null => rfl
  | bool b => rfl
  | num n => rfl
  | str s => rfl
  | arr l => rfl

theorem jsGet_backfill (strings profile : Content) (k : String)
    (h1 : k ≠ "download_cv") (h2 : k ≠ "name") :
    jsGet (backfillAliases strings profile) k = jsGet strings k := by
  unfold backfillAliases
  have step : ∀ c : Content,
      jsGet (if !(jsTruthy (jsGetD c "name")) && jsTruthy profile && jsTruthy (jsGetD profile "fullName")
        then objSet c "name" (jsGetD profile "fullName") else c) k = jsGet c k := by
    intro c
    split
    · exact jsGet_objSet_ne c "name" k _ h2
    · rfl
  rw [step]
  split
  · exact jsGet_objSet_ne strings "download_cv" k _ h1
  · rfl

/-- C3 (amended): if the resolved strings document contains a non-empty
`projects` array, the file-based list is discarded on both paths, but
the two paths do not hold the same thing: `loadSettingsAndContent`
(which reads the document before resolution and resolves the array
once) holds exactly the resolved document's array, while the
locale-change path (which reads the document after resolution) holds
that array resolved against the profile a second time.  The split is
forced by `c3_counterexample`. -/
theorem c3_amended_projects_override :
    (∀ (d : FetchedDocs) (A : CList),
        jsGet (replacePlaceholders (rawStrings d) (profileOf d)) "projects" = some (.arr A) →
        A.isNil = false →
        (loadSettingsAndContent d).projects = A) ∧
    (∀ (localeDoc templateDoc : Option Content) (st : AppState) (A : CList),
        jsGet (replacePlaceholders
            (jsOrElse (if optTruthy localeDoc then localeDoc else templateDoc) (.obj .nil))
            st.profile) "projects" = some (.arr A) →
        A.isNil = false →
        (applyLanguageChange localeDoc templateDoc st).projects =
          replacePlaceholdersList A st.profile) := by
  constructor
  · intro d A hA hne
    rw [jsGet_rp] at hA
    cases hg : jsGet (rawStrings d) "projects" with
    | none => rw [hg] at hA; exact absurd hA (by simp)
    | some v0 =>
      rw [hg] at hA
      have hA : replacePlaceholders v0 (profileOf d) = .arr A := by
        simpa using hA
      obtain ⟨l0, hv0, hAl⟩ := rp_eq_arr v0 (profileOf d) A hA
      subst hv0
      have hl0 : l0.isNil = false := by
        rw [hAl, rpList_isNil] at hne
        exact hne
      show (loadSettingsAndContent d).projects = A
      unfold loadSettingsAndContent
      simp only [hg, hl0, Bool.false_eq_true, if_false]
      exact hAl.symm
  · intro loc tpl st A hA hne
    have hs2 : jsGet (backfillAliases (replacePlaceholders
        (jsOrElse (if optTruthy loc then loc else tpl) (.obj .nil)) st.profile) st.profile)
        "projects" = some (.arr A) := by
      rw [jsGet_backfill _ _ _ (by decide) (by decide)]
      exact hA
    show (applyLanguageChange loc tpl st).projects = replacePlaceholdersList A st.profile
    unfold applyLanguageChange
    simp only [hs2, hne, Bool.false_eq_true, if_false]

theorem c3_amended_witness :
    (loadSettingsAndContent
        ⟨none, some (.obj (.cons "projects"
          (.arr (.cons (.obj (.cons "title" (.str "T") .nil)) .nil)) .nil)), none, none, none⟩).projects =
      .cons (.obj (.cons "title" (.str "T") .nil)) .nil ∧
    (applyLanguageChange
        (some (.obj (.cons "projects"
          (.arr (.cons (.obj (.cons "title" (.str "T") .nil)) .nil)) .nil))) none chainSt).projects =
      replacePlaceholdersList (.cons (.obj (.cons "title" (.str "T") .nil)) .nil) chainSt.profile :=
  ⟨c3_amended_projects_override.1
      ⟨none, some (.obj (.cons "projects"
        (.arr (.cons (.obj (.cons "title" (.str "T") .nil)) .nil)) .nil)), none, none, none⟩
      (.cons (.obj (.cons "title" (.str "T") .nil)) .nil) rfl rfl,
    c3_amended_projects_override.2
      (some (.obj (.cons "projects"
        (.arr (.cons (.obj (.cons "title" (.str "T") .nil)) .nil)) .nil))) none chainSt
      (.cons (.obj (.cons "title" (.str "T") .nil)) .nil) rfl rfl⟩

/-- C6: selecting (via `activateCard`) a project card with no video id,
no youtube embed and no demo link but with a still image clears the
iframe src, shows the project's still image, and keeps the external
demo affordance hidden. -/
theorem c6_image_project_selection (strings : Content) (settings : Settings) (dom : Dom)
    (i : Nat) (card : Card)
    (hget : dom.cards.get? i = some card)
    (hv : card.videoId = "") (hy : card.youtube = "") (hd : card.demoLink = "")
    (him : card.image ≠ "") :
    (activateCard strings settings dom i).iframeSrc = "" ∧
    (activateCard strings settings dom i).imgSrc = card.image ∧
    (activateCard strings settings dom i).imgHidden = false ∧
    (activateCard strings settings dom i).demoHidden = true := by
  have hsel :
      selectProject strings dom i =
        { dom with
            cards := modifyAt activate i (dom.cards.map deactivate),
            selTitle := card.title, selDesc := card.long,
            demoHref := "", demoHidden := true, demoText := "",
            iframeSrc := "", imgSrc := card.image, imgHidden := false } := by
    unfold selectProject
    rw [hget]
    simp [showDemoFor, hv, hy, hd, him, jsOr]
  unfold activateCard
  rw [hget]
  simp [hv, hy, hd, jsOr, hsel, setVideo]

theorem c6_image_project_selection_witness :
    (activateCard (.obj .nil) scenarioASettings scenarioADom 1).iframeSrc = "" ∧
    (activateCard (.obj .nil) scenarioASettings scenarioADom 1).imgSrc = "b.png" ∧
    (activateCard (.obj .nil) scenarioASettings scenarioADom 1).imgHidden = false ∧
    (activateCard (.obj .nil) scenarioASettings scenarioADom 1).demoHidden = true := by
  have h := c6_image_project_selection (.obj .nil) scenarioASettings scenarioADom 1
    (buildProjectCard (.obj .nil) (.obj (.cons "id" (.str "b") (.cons "image" (.str "b.png") .nil))) 1)
    (by decide) (by decide) (by decide) (by decide) (by decide)
  exact h

theorem demoEligible_showDemoFor (c : Card) :
    demoEligible c = showDemoFor c.demoLink c.projectId := by
  cases h : urlHostname c.demoLink <;> by_cases hd : c.demoLink != "" <;>
    simp [demoEligible, showDemoFor, h, hd]

theorem activate_deactivate (c : Card) : activate (deactivate c) = activate c := rfl

theorem find?_active_selectCards : ∀ (cards : List Card) (i : Nat) (card : Card),
    cards.get? i = some card →
    (modifyAt activate i (cards.map deactivate)).find? (fun c => c.active) = some (activate card)
  | [], i, card, h => by simp at h
  | c :: t, 0, card, h => by
    have hc : c = card := by simpa using h
    subst hc
    show ((activate (deactivate c)) :: t.map deactivate).find? (fun x => x.active) =
      some (activate c)
    rw [activate_deactivate, List.find?_cons_of_pos _ (by simp [activate])]
  | c :: t, i + 1, card, h => by
    have ht : t.get? i = some card := by simpa using h
    show ((deactivate c) :: modifyAt activate i (t.map deactivate)).find? (fun x => x.active) =
      some (activate card)
    rw [List.find?_cons_of_neg _ (by simp [deactivate])]
    exact find?_active_selectCards t i card ht

theorem selectProject_fields (strings : Content) (dom : Dom) (i : Nat) (card : Card)
    (hg : dom.cards.get? i = some card) :
    (selectProject strings dom i).cards = modifyAt activate i (dom.cards.map deactivate) ∧
    (selectProject strings dom i).demoHidden = !(showDemoFor card.demoLink card.projectId) := by
  unfold selectProject
  rw [hg]
  by_cases hs : showDemoFor card.demoLink card.projectId <;>
    by_cases hv : (jsOr card.videoId (jsOr card.youtube (jsOr card.demoLink "")) = "" ∧ card.image ≠ "") <;>
    simp [hs, hv]

theorem demoInv_selectProject (strings : Content) (dom : Dom) (i : Nat) (h : DemoInv dom) :
    DemoInv (selectProject strings dom i) := by
  cases hg : dom.cards.get? i with
  | none =>
    unfold selectProject
    rw [hg]
    exact h
  | some card =>
    obtain ⟨hc, hdh⟩ := selectProject_fields strings dom i card hg
    intro hvis
    rw [hdh] at hvis
    have hs : showDemoFor card.demoLink card.projectId = true := by
      cases hb : showDemoFor card.demoLink card.projectId
      · rw [hb] at hvis; simp at hvis
      · rfl
    refine ⟨activate card, ?_, ?_⟩
    · rw [hc]
      exact find?_active_selectCards dom.cards i card hg
    · rw [demoEligible_showDemoFor]
      exact hs

theorem find?_active_map_matches : ∀ (cards : List Card) (id : String) (c0 : Card),
    c0 ∈ cards → cardMatches c0 id = true →
    ∃ c1, c1 ∈ cards ∧ cardMatches c1 id = true ∧
      (cards.map (fun c => if cardMatches c id then activate c else deactivate c)).find?
        (fun c => c.active) = some (activate c1)
  | [], id, c0, hmem, _ => absurd hmem (List.not_mem_nil c0)
  | c :: t, id, c0, hmem, hm => by
    by_cases hc : cardMatches c id = true
    · exact ⟨c, List.mem_cons_self c t, hc, by simp [List.find?, hc, activate]⟩
    · have hc0t : c0 ∈ t := by
        cases List.mem_cons.mp hmem with
        | inl he => exact absurd (he ▸ hm) hc
        | inr ht => exact ht
      obtain ⟨c1, h1, h2, h3⟩ := find?_active_map_matches t id c0 hc0t hm
      refine ⟨c1, List.mem_cons_of_mem c h1, h2, ?_⟩
      simpa [List.find?, hc, deactivate] using h3

theorem demoInv_setVideo (strings : Content) (dom : Dom) (id : String) (autoplay : Bool)
    (h : DemoInv dom)
    (hmatch : jsStartsWith id "http" = true → ∃ c, c ∈ dom.cards ∧ cardMatches c id = true) :
    DemoInv (setVideo strings dom id autoplay) := by
  unfold setVideo
  by_cases h0 : id = ""
  · simp only [if_pos h0]
    exact fun hvis => h hvis
  · simp only [if_neg h0]
    cases hh : jsStartsWith id "http" with
    | false =>
      simp only [hh, Bool.not_false, if_pos]
      exact h
    | true =>
      simp only [hh, Bool.not_true, Bool.false_eq_true, if_false]
      obtain ⟨c0, hc0mem, hc0m⟩ := hmatch hh
      obtain ⟨c1, hc1mem, hc1m, hfind⟩ := find?_active_map_matches dom.cards id c0 hc0mem hc0m
      have hcards1 :
          (if !(setVideoClassify id autoplay).1 then
              setVideoNoEmbedFallback dom
            else { dom with imgSrc := "", imgHidden := true,
                            iframeSrc := (setVideoClassify id autoplay).2 }).cards = dom.cards := by
        split
        · show (setVideoNoEmbedFallback dom).cards = dom.cards
          unfold setVideoNoEmbedFallback
          dsimp only
          split <;> rfl
        · rfl
      rw [hcards1, hfind]
      by_cases hs : showDemoFor (activate c1).demoLink (activate c1).projectId
      · simp only [if_pos hs]
        intro _
        refine ⟨activate c1, hfind, ?_⟩
        rw [demoEligible_showDemoFor]
        exact hs
      · simp only [if_neg hs]
        intro hvis
        exact absurd hvis (by simp)

theorem find?_active_map_pres (f : Card → Card) (hf : ∀ c, (f c).active = c.active) :
    ∀ (cs : List Card),
      (cs.map f).find? (fun c => c.active) = (cs.find? (fun c => c.active)).map f
  | [] => rfl
  | c :: t => by
    cases ha : c.active
    · simp [List.find?, hf c, ha, find?_active_map_pres f hf t]
    · simp [List.find?, hf c, ha]

theorem demoInv_updateProjectLabels (strings : Content) (dom : Dom) :
    DemoInv (updateProjectLabels strings dom) := by
  have hfind := find?_active_map_pres (updateCardLabels strings) (fun c => rfl) dom.cards
  unfold updateProjectLabels
  dsimp only
  rw [hfind]
  cases hg : dom.cards.find? (fun c => c.active) with
  | none =>
    intro hvis
    exact absurd hvis (by simp)
  | some a =>
    by_cases hs : showDemoFor (updateCardLabels strings a).demoLink
        (updateCardLabels strings a).projectId = true
    · simp only [Option.map_some', if_pos hs]
      intro _
      refine ⟨updateCardLabels strings a, ?_, ?_⟩
      · show (List.map (updateCardLabels strings) dom.cards).find? (fun c => c.active) =
          some (updateCardLabels strings a)
        rw [hfind, hg]
        rfl
      · rw [demoEligible_showDemoFor]
        exact hs
    · simp only [Option.map_some', if_neg hs]
      intro hvis
      exact absurd hvis (by simp)

/-- C7 (amended): the external demo affordance is visible only when the
active project is the designated external-demo project — its id equals
`"kronos_live"` or its demo URL's hostname CONTAINS the fixed partner
domain `"kronos-live.pages.dev"` as a substring (the code tests
`hostname.includes(...)`, not an exact match: see `c7_counterexample`).
Formally, `DemoInv` is preserved by `selectProject`, preserved by
`setVideo` (whose active-card rewrite needs some card to match the id
shown — which holds at every call site, where the id is taken from the
selected card's own attributes), and established unconditionally by
`updateProjectLabels`. -/
theorem c7_amended_demo_visibility :
    (∀ (strings : Content) (dom : Dom) (i : Nat),
        DemoInv dom → DemoInv (selectProject strings dom i)) ∧
    (∀ (strings : Content) (dom : Dom) (id : String) (autoplay : Bool),
        DemoInv dom →
        (jsStartsWith id "http" = true → ∃ c, c ∈ dom.cards ∧ cardMatches c id = true) →
        DemoInv (setVideo strings dom id autoplay)) ∧
    (∀ (strings : Content) (dom : Dom), DemoInv (updateProjectLabels strings dom)) :=
  ⟨demoInv_selectProject, demoInv_setVideo, demoInv_updateProjectLabels⟩

theorem c7_amended_demo_visibility_witness :
    DemoInv (selectProject (.obj .nil) initialDom 0) ∧
    DemoInv (setVideo (.obj .nil) initialDom "abc" false) ∧
    DemoInv (updateProjectLabels (.obj .nil) initialDom) := by
  refine ⟨c7_amended_demo_visibility.1 (.obj .nil) initialDom 0 ?_,
    c7_amended_demo_visibility.2.1 (.obj .nil) initialDom "abc" false ?_ ?_,
    c7_amended_demo_visibility.2.2 (.obj .nil) initialDom⟩
  · intro hvis
    exact absurd hvis (by decide)
  · intro hvis
    exact absurd hvis (by decide)
  · intro hh
    exact absurd hh (by decide)

end Portfolio
